import Mathlib

/-!
Verification development for the BallKnowledge data pipeline.

Shallow embedding of the NBA-side scripts of the repository:
`scripts/api_server.py`, `scripts/generate_nba_careers.py` and
`scripts/update_nba_careers.py`.  Provider calls (the nba_api endpoints)
are modelled as explicit inputs: a value `none` stands for a call that
raised an exception, `some rows` for the tabular result.  Python floats
are modelled as rationals; the claims proved below never depend on
binary floating point rounding, only on comparisons and on data flow of
stored values.  Python `list.sort` / `sorted` (a stable sort) is
modelled by `List.insertionSort`, which is stable and therefore produces
the same output list for a given key relation.
-/

/-- Raw scalar value of one provider table cell, as seen by the Python
coercion helpers: the cell can be absent (`row.get` returned `None`),
be a float NaN or infinity, be a malformed string for which `float()` or
`int()` raises, or carry a numeric value.  Numeric strings are folded
into `num` (the `int` versus `float` string parsing distinction is not
exercised by any claim). -/
inductive RawVal where
  | missing
  | nan
  | malformed
  | num (q : ℚ)
deriving DecidableEq

/-- Truncation toward zero, the semantics of the Python `int()`
conversion applied to a float.  Stated with natural division so that it
evaluates inside the kernel. -/
def ratTrunc (q : ℚ) : ℤ :=
  if 0 ≤ q.num then Int.ofNat (q.num.toNat / q.den)
  else - Int.ofNat ((- q.num).toNat / q.den)

/-- Round to the nearest integer with ties to even, the idealised
semantics of the Python builtin `round`. -/
def roundHalfEven (q : ℚ) : ℤ :=
  let f : ℤ := ⌊q⌋
  let r : ℚ := q - (f : ℚ)
  if r < 1/2 then f
  else if 1/2 < r then f + 1
  else if f % 2 = 0 then f else f + 1

/-- Python `round(q, decimals)` on the rational model. -/
def pyRound (q : ℚ) (decimals : ℕ) : ℚ :=
  ((roundHalfEven (q * (10 : ℚ) ^ decimals) : ℤ) : ℚ) / (10 : ℚ) ^ decimals

/-- Embedding of `safe_float` from `generate_nba_careers.py` and
`update_nba_careers.py`: a missing, NaN, infinite or malformed value
becomes `0.0`, a numeric value is rounded to `decimals` places. -/
def safe_float (v : RawVal) (decimals : ℕ) : ℚ :=
  match v with
  | .missing => 0
  | .nan => 0
  | .malformed => 0
  | .num q => pyRound q decimals

/-- Embedding of `safe_int` from the same scripts: `int(float(val))`
with every failure mode mapped to `0`. -/
def safe_int (v : RawVal) : ℤ :=
  match v with
  | .missing => 0
  | .nan => 0
  | .malformed => 0
  | .num q => ratTrunc q

/-- Bare Python `int(x)`: raises (modelled as `none`) on a missing cell,
NaN or a malformed string.  In `update_nba_careers.py` a raised
`ValueError` or `TypeError` makes the surrounding loop skip the row; a
missing PLAYER_ID column would raise an uncaught `KeyError` and abort
the run, a case no claim distinguishes, folded into `none` here. -/
def pyInt (v : RawVal) : Option ℤ :=
  match v with
  | .num q => some (ratTrunc q)
  | _ => none

/-- Enriched roster player, the `Player` response model of
`api_server.py` and the shape of the dictionaries stored in the roster
cache files. -/
structure Player where
  id : ℤ
  name : String
  position : String
  number : String
  ppg : ℚ
  isLowScorer : Bool
deriving DecidableEq

/-- State of the `cached_at` field of a decoded cache file: absent
(`data.get` falls back to the `"2000-01-01"` default), present but not
parseable by `datetime.fromisoformat` (which then raises, caught by the
surrounding `except`), or a valid timestamp, modelled in seconds. -/
inductive TsField where
  | missing
  | malformed
  | val (t : ℤ)
deriving DecidableEq

/-- Decoded contents of a roster cache file.  A `none` in `players`
models a JSON object without a `"players"` key. -/
structure CacheData where
  cached_at : TsField
  players : Option (List Player)
deriving DecidableEq

/-- CACHE_EXPIRY_HOURS = 24 from `api_server.py`, in seconds. -/
def CACHE_EXPIRY_SECONDS : ℤ := 24 * 3600

/-- Timestamp of the `"2000-01-01"` default used when `cached_at` is
missing, in seconds since the Unix epoch. -/
def EPOCH_2000 : ℤ := 946684800

/-- Embedding of `get_cached_roster` from `api_server.py`.  The file
system state for the key is `none` when no file exists, `some none`
when the file exists but `json.load` raises, and `some (some d)` for a
decoded file.  The second component of the result is the file state
after the call; the source only ever opens the file for reading, so
every branch returns it unchanged. -/
def get_cached_roster (file : Option (Option CacheData)) (now : ℤ) :
    Option (List Player) × Option (Option CacheData) :=
  match file with
  | none => (none, file)
  | some none => (none, file)
  | some (some data) =>
    match data.cached_at with
    | .malformed => (none, file)
    | .missing =>
      if CACHE_EXPIRY_SECONDS < now - EPOCH_2000 then (none, file)
      else (some (data.players.getD []), file)
    | .val t =>
      if CACHE_EXPIRY_SECONDS < now - t then (none, file)
      else (some (data.players.getD []), file)

/-- Raw row of the CommonTeamRoster provider table. -/
structure RawRosterRow where
  player_id : RawVal
  player : String
  position : Option String
  num : Option String
deriving DecidableEq

/-- Converted roster player dictionary built inside `fetch_team_roster`. -/
structure RosterRow where
  id : ℤ
  name : String
  position : String
  number : String
deriving DecidableEq

/-- One iteration of the conversion loop of `fetch_team_roster`; a
failing `int(row[PLAYER_ID])` raises and is handled at the level of the
whole fetch. -/
def convertRosterRow (r : RawRosterRow) : Option RosterRow :=
  (pyInt r.player_id).map (fun pid => ⟨pid, r.player, r.position.getD "", r.num.getD ""⟩)

/-- Embedding of `fetch_team_roster` from `api_server.py`: a provider
exception (`none` input) or a row conversion failure anywhere in the
loop is caught by the surrounding `try` and yields the empty list. -/
def fetch_team_roster (providerResult : Option (List RawRosterRow)) : List RosterRow :=
  match providerResult with
  | none => []
  | some rows =>
    match rows.mapM convertRosterRow with
    | some ps => ps
    | none => []

/-- Dictionary lookup with default `0.0` used for the PPG table:
`ppg_data.get(player[id], 0.0)`. -/
def scoreOf (tbl : List (ℤ × ℚ)) (pid : ℤ) : ℚ := (List.lookup pid tbl).getD 0

/-- Enrichment of one roster row inside `get_roster` (lines 414 to 421
of `api_server.py`): attach the per game score and the low scorer flag
with the fixed threshold 10.0. -/
def enrichRosterPlayer (tbl : List (ℤ × ℚ)) (p : RosterRow) : Player :=
  ⟨p.id, p.name, p.position, p.number, scoreOf tbl p.id, decide (scoreOf tbl p.id < 10)⟩

/-- Descending by score, the key relation of
`enriched_players.sort(key=lambda p: p[ppg], reverse=True)`. -/
def ppgDescRel (a b : Player) : Prop := b.ppg ≤ a.ppg

instance : DecidableRel ppgDescRel :=
  fun a b => inferInstanceAs (Decidable (b.ppg ≤ a.ppg))

instance : IsTotal Player ppgDescRel := ⟨fun a b => le_total b.ppg a.ppg⟩

instance : IsTrans Player ppgDescRel := ⟨fun _ _ _ h1 h2 => le_trans h2 h1⟩

/-- Enrichment pipeline of `get_roster`: map the enrichment over the
roster, then stable sort by score descending. -/
def enrichPlayers (roster : List RosterRow) (tbl : List (ℤ × ℚ)) : List Player :=
  List.insertionSort ppgDescRel (roster.map (enrichRosterPlayer tbl))

/-- The 30 team abbreviations of `NBA_TEAMS` in `api_server.py`. -/
def NBA_TEAMS : List (String × ℤ) :=
  [("ATL", 1610612737), ("BOS", 1610612738), ("BKN", 1610612751), ("CHA", 1610612766),
   ("CHI", 1610612741), ("CLE", 1610612739), ("DAL", 1610612742), ("DEN", 1610612743),
   ("DET", 1610612765), ("GSW", 1610612744), ("HOU", 1610612745), ("IND", 1610612754),
   ("LAC", 1610612746), ("LAL", 1610612747), ("MEM", 1610612763), ("MIA", 1610612748),
   ("MIL", 1610612749), ("MIN", 1610612750), ("NOP", 1610612740), ("NYK", 1610612752),
   ("OKC", 1610612760), ("ORL", 1610612753), ("PHI", 1610612755), ("PHX", 1610612756),
   ("POR", 1610612757), ("SAC", 1610612758), ("SAS", 1610612759), ("TOR", 1610612761),
   ("UTA", 1610612762), ("WAS", 1610612764)]

/-- Python `str.upper`, modelled character wise on the string data (the
team codes are ASCII). -/
def pyUpper (s : String) : String := ⟨s.data.map Char.toUpper⟩

/-- The season format guard of both endpoints:
`len(season) == 7 and season[4] == "-"`. -/
def validSeasonFormat (season : String) : Bool :=
  season.data.length == 7 && season.data.getD 4 ' ' == '-'

/-- Side effects observable from one request: whether the on disk cache
was read for the key, whether a provider call was issued, and whether a
cache write was attempted. -/
structure Effects where
  cacheRead : Bool
  providerCalled : Bool
  cacheWrite : Bool
deriving DecidableEq

def noEffects : Effects := ⟨false, false, false⟩

/-- Outcome of the `/roster/{team}/{season}` endpoint.  `badTeam`
carries HTTP 404, `badSeason` HTTP 400, `notFound` HTTP 404; the two
success shapes carry the `cached` flag of the response model. -/
inductive RosterOutcome where
  | badTeam (team : String)
  | badSeason
  | cachedResp (players : List Player)
  | notFound
  | freshResp (players : List Player)
deriving DecidableEq

/-- Environment of one roster request: file cache state for the key,
current wall clock, provider roster result, and the season wide PPG
table produced by `get_season_stats` (in memory memo or fresh fetch,
with provider failure already collapsed to the empty table). -/
structure RosterEnv where
  cacheFile : Option (Option CacheData)
  now : ℤ
  providerRoster : Option (List RawRosterRow)
  seasonStats : List (ℤ × ℚ)
deriving DecidableEq

/-- Embedding of the `get_roster` endpoint handler of `api_server.py`:
uppercase the team, validate team membership, validate the season
format, consult the file cache (a `None` or empty cached list is falsy
and falls through), fetch the roster (404 when empty), enrich, sort,
save to cache and answer. -/
def get_roster (team season : String) (env : RosterEnv) : RosterOutcome × Effects :=
  let teamU := pyUpper team
  match List.lookup teamU NBA_TEAMS with
  | none => (.badTeam teamU, noEffects)
  | some _teamId =>
    if !(validSeasonFormat season) then (.badSeason, noEffects)
    else
      match (get_cached_roster env.cacheFile env.now).1 with
      | some (p :: ps) => (.cachedResp (p :: ps), ⟨true, false, false⟩)
      | _ =>
        match fetch_team_roster env.providerRoster with
        | [] => (.notFound, ⟨true, true, false⟩)
        | q :: qs =>
          let enriched := enrichPlayers (q :: qs) env.seasonStats
          (.freshResp enriched, ⟨true, true, true⟩)

/-- Season wide player identity, the `SeasonPlayer` response model. -/
structure SeasonPlayer where
  id : ℤ
  name : String
deriving DecidableEq

/-- Decoded contents of a season players cache file. -/
structure SPCacheData where
  cached_at : TsField
  players : Option (List SeasonPlayer)
deriving DecidableEq

/-- Embedding of `get_cached_season_players` from `api_server.py`; same
logic as `get_cached_roster` on the season players cache files. -/
def get_cached_season_players (file : Option (Option SPCacheData)) (now : ℤ) :
    Option (List SeasonPlayer) × Option (Option SPCacheData) :=
  match file with
  | none => (none, file)
  | some none => (none, file)
  | some (some data) =>
    match data.cached_at with
    | .malformed => (none, file)
    | .missing =>
      if CACHE_EXPIRY_SECONDS < now - EPOCH_2000 then (none, file)
      else (some (data.players.getD []), file)
    | .val t =>
      if CACHE_EXPIRY_SECONDS < now - t then (none, file)
      else (some (data.players.getD []), file)

/-- Outcome of the `/players/{season}` endpoint. -/
inductive SPOutcome where
  | badSeason
  | cachedResp (players : List SeasonPlayer)
  | notFound
  | freshResp (players : List SeasonPlayer)
deriving DecidableEq

/-- Environment of one season players request.  `allPlayers` is the
result of `get_all_season_players` (in memory memo over
`fetch_all_season_players`, whose internal provider fallbacks already
collapse every failure to the empty list); its internals are not the
subject of any claim and are abstracted as this input. -/
structure SPEnv where
  cacheFile : Option (Option SPCacheData)
  now : ℤ
  allPlayers : List SeasonPlayer
deriving DecidableEq

/-- Embedding of the `get_season_players` endpoint handler of
`api_server.py`. -/
def get_season_players (season : String) (env : SPEnv) : SPOutcome × Effects :=
  if !(validSeasonFormat season) then (.badSeason, noEffects)
  else
    match (get_cached_season_players env.cacheFile env.now).1 with
    | some (p :: ps) => (.cachedResp (p :: ps), ⟨true, false, false⟩)
    | _ =>
      match env.allPlayers with
      | [] => (.notFound, ⟨true, true, false⟩)
      | q :: qs => (.freshResp (q :: qs), ⟨true, true, true⟩)

/-- One season stat row of a career pool entry.  The JSON key `min` is
rendered as the field `minutes` (`min` is a core Lean name). -/
structure SeasonRow where
  season : String
  team : String
  gp : ℤ
  minutes : ℚ
  pts : ℚ
  reb : ℚ
  ast : ℚ
  stl : ℚ
  blk : ℚ
  fg_pct : ℚ
  fg3_pct : ℚ
deriving DecidableEq

/-- Biographical record of a career pool entry. -/
structure Bio where
  height : String
  weight : ℤ
  school : String
  exp : ℤ
  draft_year : ℤ
deriving DecidableEq

def defaultBio : Bio := ⟨"", 0, "", 0, 0⟩

/-- Raw row of the CommonPlayerInfo provider table. -/
structure BioRaw where
  height : Option String
  weight : RawVal
  school : Option String
  season_exp : RawVal
  draft_year : Option String
deriving DecidableEq

/-- Python `str.isdigit` on the model. -/
def isDigits (s : String) : Bool :=
  s.data ≠ [] && s.data.all (fun c => c.isDigit)

/-- Value of `int(dy)` for a digit string. -/
def parseDigits (s : String) : ℤ :=
  Int.ofNat (s.data.foldl (fun acc c => acc * 10 + (c.toNat - 48)) 0)

/-- The bio building block shared by `fetch_career` and
`fetch_full_career`: a provider exception or an empty info frame (both
collapsed into the `none` input) leaves the default bio. -/
def buildBio (raw : Option BioRaw) : Bio :=
  match raw with
  | none => defaultBio
  | some b =>
    { height := b.height.getD "",
      weight := safe_int b.weight,
      school := b.school.getD "",
      exp := safe_int b.season_exp,
      draft_year :=
        match b.draft_year with
        | none => 0
        | some dy => if dy ≠ "" && isDigits dy then parseDigits dy else 0 }

/-- Raw row of the PlayerCareerStats provider table. -/
structure CareerRow where
  season_id : String
  team_abbreviation : String
  gp : RawVal
  minutes : RawVal
  pts : RawVal
  reb : RawVal
  ast : RawVal
  stl : RawVal
  blk : RawVal
  fg_pct : RawVal
  fg3_pct : RawVal
deriving DecidableEq

/-- Keys of a pandas `groupby(..., sort=False)` in order of first
occurrence. -/
def firstKeys (keys : List String) : List String :=
  keys.foldl (fun acc k => if acc.contains k then acc else acc ++ [k]) []

/-- Season dictionary built from one source row of a career frame. -/
def mkSeasonRowFrom (seasonLabel teamLabel : String) (r : CareerRow) : SeasonRow :=
  ⟨seasonLabel, teamLabel, safe_int r.gp, safe_float r.minutes 1, safe_float r.pts 1,
    safe_float r.reb 1, safe_float r.ast 1, safe_float r.stl 1, safe_float r.blk 1,
    safe_float r.fg_pct 3, safe_float r.fg3_pct 3⟩

def dummyCareerRow : CareerRow :=
  ⟨"", "", .missing, .missing, .missing, .missing, .missing, .missing, .missing,
    .missing, .missing⟩

/-- One group of the `groupby("SEASON_ID", sort=False)` loop shared by
`fetch_career` (generate script, lines 152 to 187) and
`fetch_full_career` (update script, lines 96 to 131): a single team
season keeps its own row, a multi team season takes the joined team
names and the TOT row when present. -/
def buildSeasonOf (rows : List CareerRow) (sid : String) : SeasonRow :=
  let group := rows.filter (fun r => r.season_id == sid)
  let totRows := group.filter (fun r => r.team_abbreviation == "TOT")
  let teamRows := group.filter (fun r => r.team_abbreviation != "TOT")
  if teamRows.length ≤ 1 ∧ totRows = [] then
    let row := group.headD dummyCareerRow
    mkSeasonRowFrom row.season_id row.team_abbreviation row
  else
    let teamNames :=
      if teamRows = [] then "???"
      else String.intercalate "/" (teamRows.map (fun r => r.team_abbreviation))
    let src := (totRows ++ teamRows).headD dummyCareerRow
    mkSeasonRowFrom sid teamNames src

/-- The full season list built from a career frame, one entry per
distinct SEASON_ID in first occurrence order. -/
def buildSeasons (rows : List CareerRow) : List SeasonRow :=
  (firstKeys (rows.map (fun r => r.season_id))).map (buildSeasonOf rows)

/-- Career pool entry (one element of `nba_careers.json`). -/
structure Career where
  player_id : ℤ
  player_name : String
  seasons : List SeasonRow
  bio : Bio
deriving DecidableEq

/-- Embedding of `fetch_career` from `generate_nba_careers.py`: a
provider exception (`none`) or an empty frame gives no entry, a career
with fewer than 2 season rows is discarded, otherwise the entry is
assembled with the (independently fallible) bio. -/
def fetch_career (player_id : ℤ) (player_name : String)
    (careerData : Option (List CareerRow)) (bioData : Option BioRaw) : Option Career :=
  match careerData with
  | none => none
  | some rows =>
    if rows = [] then none
    else
      let seasons := buildSeasons rows
      if seasons.length < 2 then none
      else some ⟨player_id, player_name, seasons, buildBio bioData⟩

/-- Embedding of `fetch_full_career` from `update_nba_careers.py`; the
source duplicates the body of `fetch_career` verbatim. -/
def fetch_full_career (player_id : ℤ) (player_name : String)
    (careerData : Option (List CareerRow)) (bioData : Option BioRaw) : Option Career :=
  match careerData with
  | none => none
  | some rows =>
    if rows = [] then none
    else
      let seasons := buildSeasons rows
      if seasons.length < 2 then none
      else some ⟨player_id, player_name, seasons, buildBio bioData⟩

/-- Eligible candidate marker (player identifier plus display name). -/
structure Candidate where
  player_id : ℤ
  player_name : String
deriving DecidableEq

/-- One iteration of the phase C loop of `generate_nba_careers.py`
`main`: fetch the career of the candidate and append it to the pool on
success.  The second component logs the player identifiers handed to
the detail fetch, in order. -/
def phaseCStep (pc : ℤ → Option (List CareerRow)) (pb : ℤ → Option BioRaw)
    (acc : List Career × List ℤ) (p : Candidate) : List Career × List ℤ :=
  match fetch_career p.player_id p.player_name (pc p.player_id) (pb p.player_id) with
  | some c => (acc.1 ++ [c], acc.2 ++ [p.player_id])
  | none => (acc.1, acc.2 ++ [p.player_id])

/-- Phase C of `generate_nba_careers.py` `main`: walk the remaining
candidates in order, fetch each career, append the successes to the
accumulated pool. -/
def phaseC (careers0 : List Career) (cands : List Candidate)
    (pc : ℤ → Option (List CareerRow)) (pb : ℤ → Option BioRaw) :
    List Career × List ℤ :=
  cands.foldl (phaseCStep pc pb) (careers0, [])

/-- Embedding of the selection logic of `generate_nba_careers.py`
`main` (lines 223 to 259): load the checkpoint when resuming, derive
the done identifiers from it, re-run the (cheap) eligibility phases to
obtain `eligible` — an input here, computed without any access to the
checkpoint — and run phase C on the eligible candidates whose
identifier is not already done. -/
def genMain (resumeFlag : Bool) (checkpoint : Option (List Career))
    (eligible : List Candidate)
    (pc : ℤ → Option (List CareerRow)) (pb : ℤ → Option BioRaw) :
    List Career × List ℤ :=
  let careers0 := match resumeFlag, checkpoint with
    | true, some cs => cs
    | _, _ => []
  let doneIds := careers0.map (fun c => c.player_id)
  let remaining := eligible.filter (fun p => !(doneIds.contains p.player_id))
  phaseC careers0 remaining pc pb

/-- Raw row of the LeagueDashPlayerStats table as consumed by the
incremental updater. -/
structure StatsRow where
  player_id : RawVal
  player_name : Option String
  player : Option String
  team_abbreviation : Option String
  gp : RawVal
  minutes : RawVal
  pts : RawVal
  reb : RawVal
  ast : RawVal
  stl : RawVal
  blk : RawVal
  fg_pct : RawVal
  fg3_pct : RawVal
deriving DecidableEq

/-- Embedding of `build_season_row` from `update_nba_careers.py`. -/
def build_season_row (row : StatsRow) (season : String) : SeasonRow :=
  ⟨season, row.team_abbreviation.getD "???", safe_int row.gp, safe_float row.minutes 1,
    safe_float row.pts 1, safe_float row.reb 1, safe_float row.ast 1,
    safe_float row.stl 1, safe_float row.blk 1, safe_float row.fg_pct 1,
    safe_float row.fg3_pct 1⟩

/-- The extraction prologue of the updater row loop (`pid`, `name`,
`gp`, `pts`); `none` models the caught `ValueError`/`TypeError` skip. -/
def extractRow (r : StatsRow) : Option (ℤ × String × ℤ × ℚ) :=
  match pyInt r.player_id with
  | none => none
  | some pid =>
    some (pid, r.player_name.getD (r.player.getD ""), safe_int r.gp, safe_float r.pts 1)

/-- Ascending by season label (Python string comparison is code point
lexicographic, the order of the character data lists). -/
def seasonKeyRel (a b : SeasonRow) : Prop := a.season.data ≤ b.season.data

instance : DecidableRel seasonKeyRel :=
  fun a b => inferInstanceAs (Decidable (a.season.data ≤ b.season.data))

instance : IsTotal SeasonRow seasonKeyRel := ⟨fun a b => le_total a.season.data b.season.data⟩

instance : IsTrans SeasonRow seasonKeyRel := ⟨fun _ _ _ h1 h2 => le_trans h1 h2⟩

/-- The append then sort step applied to an existing pool entry when a
new season row arrives (update script, lines 223 to 224). -/
def appendSeasonSorted (e : Career) (r : StatsRow) (season : String) : Career :=
  { e with seasons := List.insertionSort seasonKeyRel (e.seasons ++ [build_season_row r season]) }

/-- In place dictionary value replacement of `careers_by_id[pid]`. -/
def replacePool (pool : List Career) (pid : ℤ) (c : Career) : List Career :=
  pool.map (fun e => if e.player_id == pid then c else e)

/-- Loop state of the per season row loop of the updater: the pool
dictionary (as an insertion ordered association list), the `updated`
and `already_present` counters and the accumulated new candidates. -/
structure UpdState where
  pool : List Career
  updated : ℕ
  alreadyPresent : ℕ
  newCandidates : List Candidate
deriving DecidableEq

/-- MIN_PPG = 10.0 from `update_nba_careers.py`. -/
def MIN_PPG : ℚ := 10

/-- MIN_GP = 20 from `update_nba_careers.py`. -/
def MIN_GP : ℤ := 20

/-- One iteration of the row loop of `update_nba_careers.py` `main`
(lines 209 to 231): skip unextractable rows; for a known identifier
either append the season row (and re-sort that player) or count it as
already present; for an unknown identifier accumulate a candidate when
the games played and scoring bars are met. -/
def updateStep (season : String) (s : UpdState) (r : StatsRow) : UpdState :=
  match extractRow r with
  | none => s
  | some (pid, name, gp, pts) =>
    match s.pool.find? (fun e => e.player_id == pid) with
    | some entry =>
      if (entry.seasons.map (fun sr => sr.season)).contains season then
        { s with alreadyPresent := s.alreadyPresent + 1 }
      else
        { s with
            pool := replacePool s.pool pid (appendSeasonSorted entry r season),
            updated := s.updated + 1 }
    | none =>
      if MIN_GP ≤ gp ∧ MIN_PPG ≤ pts then
        { s with newCandidates := s.newCandidates ++ [⟨pid, name⟩] }
      else s

/-- The full row loop for one season of the updater. -/
def processRows (pool : List Career) (rows : List StatsRow) (season : String) : UpdState :=
  rows.foldl (updateStep season) ⟨pool, 0, 0, []⟩

/-- Python dictionary assignment `careers_by_id[pid] = result`: replace
in place when the key exists, append otherwise. -/
def insertCareer (pool : List Career) (c : Career) : List Career :=
  if pool.any (fun e => e.player_id == c.player_id) then
    pool.map (fun e => if e.player_id == c.player_id then c else e)
  else pool ++ [c]

/-- One iteration of the new candidate loop of the updater: fetch the
full career of the candidate and insert it into the pool when the fetch
yields an entry. -/
def candStep (pc : ℤ → Option (List CareerRow)) (pb : ℤ → Option BioRaw)
    (pool : List Career) (p : Candidate) : List Career :=
  match fetch_full_career p.player_id p.player_name (pc p.player_id) (pb p.player_id) with
  | some c => insertCareer pool c
  | none => pool

/-- The new candidate loop of the updater (lines 236 to 246). -/
def candPhase (s : UpdState) (pc : ℤ → Option (List CareerRow)) (pb : ℤ → Option BioRaw) :
    List Career :=
  s.newCandidates.foldl (candStep pc pb) s.pool

/-- One full season pass of the incremental updater: the row loop
followed by the new candidate loop. -/
def runSeasonUpdate (pool : List Career) (rows : List StatsRow) (season : String)
    (pc : ℤ → Option (List CareerRow)) (pb : ℤ → Option BioRaw) : List Career :=
  candPhase (processRows pool rows season) pc pb

/-- Spec side description of one joined roster row, written from the
spec sentences of the roster enrichment pipeline: the roster row joined
to the scoring table by player identifier, defaulting to a zero score,
with the low scorer flag set exactly when the score is below 10.0. -/
def specJoinRow (tbl : List (ℤ × ℚ)) (p : RosterRow) : Player :=
  ⟨p.id, p.name, p.position, p.number, (List.lookup p.id tbl).getD 0,
    decide ((List.lookup p.id tbl).getD 0 < 10)⟩

/-- A stat row of the target season counts as already applied to the
pool when it extracts and its player both exists in the pool and has a
row for that season. -/
def AppliedRow (pool : List Career) (season : String) (r : StatsRow) : Prop :=
  ∃ pid nm gp pts, extractRow r = some (pid, nm, gp, pts) ∧
    ∃ e, pool.find? (fun c => c.player_id == pid) = some e ∧
      (e.seasons.map (fun sr => sr.season)).contains season = true

/-- Example enriched player, used by concrete witnesses below. -/
def pEx : Player := ⟨1, "A", "G", "0", 0, true⟩

/-- Roster request environment with no cache file, no provider data. -/
def trivRosterEnv : RosterEnv := ⟨none, 0, none, []⟩

/-- Roster request environment whose cache file for the key is fresh
and holds one player. -/
def envCacheHit : RosterEnv := ⟨some (some ⟨TsField.val 0, some [pEx]⟩), 0, none, []⟩

/-- Provider roster with a duplicated player identifier. -/
def dupRawRoster : List RawRosterRow :=
  [⟨RawVal.num 1, "A", none, none⟩, ⟨RawVal.num 1, "A", none, none⟩]

/-- Roster rows with distinct identifiers, for the dedup witness. -/
def roster2 : List RosterRow := [⟨1, "A", "", ""⟩, ⟨2, "B", "", ""⟩]

/-- Career frame whose rows arrive in non ascending season order. -/
def outOfOrderRows : List CareerRow :=
  [{ dummyCareerRow with season_id := "2001-02", team_abbreviation := "BOS" },
   { dummyCareerRow with season_id := "2000-01", team_abbreviation := "BOS" }]

/-- Two row career frame in ascending order, for witnesses. -/
def wRows : List CareerRow :=
  [{ dummyCareerRow with season_id := "1999-00", team_abbreviation := "BOS" },
   { dummyCareerRow with season_id := "2000-01", team_abbreviation := "BOS" }]

/-- Season rows of an example two season pool entry. -/
def sr2000 : SeasonRow := ⟨"2000-01", "BOS", 0, 0, 0, 0, 0, 0, 0, 0, 0⟩

def sr2001 : SeasonRow := ⟨"2001-02", "BOS", 0, 0, 0, 0, 0, 0, 0, 0, 0⟩

/-- Example pool with one entry that already has seasons 2000-01 and
2001-02. -/
def poolEx1 : List Career := [⟨1, "A", [sr2000, sr2001], defaultBio⟩]

/-- One stat row for player 1, used for the idempotence witness. -/
def rowEx1 : StatsRow :=
  ⟨RawVal.num 1, some "A", none, some "BOS", RawVal.missing, RawVal.missing,
    RawVal.missing, RawVal.missing, RawVal.missing, RawVal.missing, RawVal.missing,
    RawVal.missing, RawVal.missing⟩

def rowsEx1 : List StatsRow := [rowEx1]

/-- The career entry that `fetch_career` builds from `wRows`. -/
def cW : Career :=
  ⟨7, "W",
    [⟨"1999-00", "BOS", 0, 0, 0, 0, 0, 0, 0, 0, 0⟩,
     ⟨"2000-01", "BOS", 0, 0, 0, 0, 0, 0, 0, 0, 0⟩], defaultBio⟩

/-- Timestamp actually used by the cache age check: the stored value,
or the year 2000 default when the field is missing. -/
def tsOrDefault : TsField → ℤ
  | .missing => EPOCH_2000
  | .malformed => EPOCH_2000
  | .val t => t

/-- C2 (corrected).  Characterization of the file backed cache read:
the stored players payload (an absent players field read as the empty
list) is returned exactly when the file exists, decodes, its timestamp
parses or is absent (an absent timestamp is read as the 2000-01-01
default), and the age against that timestamp is at most the expiry
window; in every other case the read yields the absent sentinel, and
the file state is never modified or deleted. -/
theorem cache_read_characterization (file : Option (Option CacheData)) (now : ℤ) :
    (get_cached_roster file now).2 = file ∧
    (∀ ps, (get_cached_roster file now).1 = some ps ↔
      ∃ d, file = some (some d) ∧ d.cached_at ≠ TsField.malformed ∧
        now - tsOrDefault d.cached_at ≤ CACHE_EXPIRY_SECONDS ∧ ps = d.players.getD []) := by
  obtain _ | (_ | d) := file
  · refine ⟨rfl, fun ps => ?_⟩
    simp [get_cached_roster]
  · refine ⟨rfl, fun ps => ?_⟩
    simp [get_cached_roster]
  · obtain ⟨ts, pl⟩ := d
    obtain _ | _ | t := ts
    · by_cases h : CACHE_EXPIRY_SECONDS < now - EPOCH_2000
      · refine ⟨by simp [get_cached_roster, h], fun ps => ?_⟩
        simp [get_cached_roster, h, tsOrDefault]
        omega
      · refine ⟨by simp [get_cached_roster, h], fun ps => ?_⟩
        simp [get_cached_roster, h, tsOrDefault]
        constructor
        · intro he
          exact ⟨by omega, he.symm⟩
        · intro ⟨_, he⟩
          exact he.symm
    · refine ⟨rfl, fun ps => ?_⟩
      simp [get_cached_roster]
    · by_cases h : CACHE_EXPIRY_SECONDS < now - t
      · refine ⟨by simp [get_cached_roster, h], fun ps => ?_⟩
        simp [get_cached_roster, h, tsOrDefault]
        omega
      · refine ⟨by simp [get_cached_roster, h], fun ps => ?_⟩
        simp [get_cached_roster, h, tsOrDefault]
        constructor
        · intro he
          exact ⟨by omega, he.symm⟩
        · intro ⟨_, he⟩
          exact he.symm

/-- C2 counterexample.  A decoded cache file with a missing cached_at
field and a non empty players list is returned as a present payload
when the clock reads 2000-01-01 (the age check runs against the
defaulted timestamp), so the missing field case does not always behave
as absent, contrary to the claim. -/
theorem cache_read_missing_ts_cex :
    ¬ ((get_cached_roster (some (some ⟨TsField.missing, some [pEx]⟩)) EPOCH_2000).1 = none ∨
       (get_cached_roster (some (some ⟨TsField.missing, some [pEx]⟩)) EPOCH_2000).1 =
         some []) := by
  decide

/-- C6 counterexample.  A request with an unknown team and a malformed
season is rejected with the unknown team error (HTTP 404), not the bad
season error (HTTP 400): the team check runs first, so the claim that
every malformed season is rejected with a bad request error fails. -/
theorem season_format_cex :
    validSeasonFormat "bad" = false ∧
    (get_roster "XXX" "bad" trivRosterEnv).1 = RosterOutcome.badTeam "XXX" ∧
    (get_roster "XXX" "bad" trivRosterEnv).1 ≠ RosterOutcome.badSeason := by
  decide

/-- C6 (corrected).  A season label failing the 7 characters with a
dash at index 4 check is rejected before any provider call or cache
read on both endpoints: the season players endpoint always answers bad
request (400); the roster endpoint answers bad request when the team is
recognized, and unknown team (404) otherwise — in every case with no
cache read, no provider call and no cache write. -/
theorem season_format_rejected_first (team season : String) (envR : RosterEnv) (envS : SPEnv)
    (h : validSeasonFormat season = false) :
    get_season_players season envS = (SPOutcome.badSeason, noEffects) ∧
    ((List.lookup (pyUpper team) NBA_TEAMS).isSome →
      get_roster team season envR = (RosterOutcome.badSeason, noEffects)) ∧
    (List.lookup (pyUpper team) NBA_TEAMS = none →
      get_roster team season envR = (RosterOutcome.badTeam (pyUpper team), noEffects)) := by
  refine ⟨by simp [get_season_players, h], ?_, ?_⟩
  · intro hT
    obtain ⟨tid, htid⟩ := Option.isSome_iff_exists.mp hT
    simp [get_roster, htid, h]
  · intro hT
    simp [get_roster, hT]

/-- C6 witness at a concrete request. -/
theorem season_format_rejected_first_witness :
    get_season_players "bad" ⟨none, 0, []⟩ = (SPOutcome.badSeason, noEffects) ∧
    get_roster "LAL" "bad" trivRosterEnv = (RosterOutcome.badSeason, noEffects) := by
  have h := season_format_rejected_first "LAL" "bad" trivRosterEnv ⟨none, 0, []⟩ (by decide)
  exact ⟨h.1, h.2.1 (by decide)⟩

/-- C7.  On a valid team and season with a cache miss, a provider
roster that comes back empty (including the exception to empty list
collapse inside the roster fetch) makes the endpoint answer not found
(HTTP 404) with no cache write, never an empty list success. -/
theorem empty_roster_not_found (team season : String) (env : RosterEnv) (tid : ℤ)
    (hT : List.lookup (pyUpper team) NBA_TEAMS = some tid)
    (hS : validSeasonFormat season = true)
    (hC : (get_cached_roster env.cacheFile env.now).1 = none ∨
          (get_cached_roster env.cacheFile env.now).1 = some [])
    (hR : fetch_team_roster env.providerRoster = []) :
    get_roster team season env = (RosterOutcome.notFound, ⟨true, true, false⟩) := by
  obtain h | h := hC <;> simp [get_roster, hT, hS, h, hR]

/-- C7 witness: provider exception for LAL 2023-24 on an empty cache. -/
theorem empty_roster_not_found_witness :
    get_roster "LAL" "2023-24" trivRosterEnv = (RosterOutcome.notFound, ⟨true, true, false⟩) :=
  empty_roster_not_found "LAL" "2023-24" trivRosterEnv 1610612747 (by decide) (by decide)
    (Or.inl rfl) rfl

/-- C10.  The roster endpoint returns a cache sourced response exactly
when the file cache read yields a non empty stored list: a read that
yields the absent sentinel or an empty list falls through to a fresh
provider fetch (not found or fresh response), so a cache sourced
response never carries zero players. -/
theorem cache_hit_requires_nonempty (team season : String) (env : RosterEnv) (tid : ℤ)
    (hT : List.lookup (pyUpper team) NBA_TEAMS = some tid)
    (hS : validSeasonFormat season = true) :
    (∀ ps, (get_roster team season env).1 = RosterOutcome.cachedResp ps →
      (get_cached_roster env.cacheFile env.now).1 = some ps ∧ ps ≠ []) ∧
    ((∃ ps, ps ≠ [] ∧ (get_cached_roster env.cacheFile env.now).1 = some ps) →
      ∃ ps, (get_roster team season env).1 = RosterOutcome.cachedResp ps) ∧
    (((get_cached_roster env.cacheFile env.now).1 = none ∨
      (get_cached_roster env.cacheFile env.now).1 = some []) →
      (get_roster team season env).1 = RosterOutcome.notFound ∨
      ∃ ps, (get_roster team season env).1 = RosterOutcome.freshResp ps) := by
  rcases h : (get_cached_roster env.cacheFile env.now).1 with _ | (_ | ⟨p, ps⟩)
  · refine ⟨?_, ?_, ?_⟩
    · intro qs hq
      rcases hF : fetch_team_roster env.providerRoster with _ | ⟨r, rs⟩ <;>
        simp [get_roster, hT, hS, h, hF] at hq
    · rintro ⟨qs, _, hq⟩
      simp [h] at hq
    · intro _
      rcases hF : fetch_team_roster env.providerRoster with _ | ⟨r, rs⟩
      · exact Or.inl (by simp [get_roster, hT, hS, h, hF])
      · exact Or.inr ⟨enrichPlayers (r :: rs) env.seasonStats,
          by simp [get_roster, hT, hS, h, hF]⟩
  · refine ⟨?_, ?_, ?_⟩
    · intro qs hq
      rcases hF : fetch_team_roster env.providerRoster with _ | ⟨r, rs⟩ <;>
        simp [get_roster, hT, hS, h, hF] at hq
    · rintro ⟨qs, hne, hq⟩
      simp [h] at hq
      exact absurd hq hne
    · intro _
      rcases hF : fetch_team_roster env.providerRoster with _ | ⟨r, rs⟩
      · exact Or.inl (by simp [get_roster, hT, hS, h, hF])
      · exact Or.inr ⟨enrichPlayers (r :: rs) env.seasonStats,
          by simp [get_roster, hT, hS, h, hF]⟩
  · refine ⟨?_, ?_, ?_⟩
    · intro qs hq
      simp [get_roster, hT, hS, h] at hq
      subst hq
      exact ⟨rfl, List.cons_ne_nil p ps⟩
    · intro _
      exact ⟨p :: ps, by simp [get_roster, hT, hS, h]⟩
    · intro hx
      obtain hx | hx := hx <;> simp [h] at hx

/-- C10 witness: a fresh cache file with one stored player yields a
cache sourced response, and the theorem recovers the stored payload. -/
theorem cache_hit_requires_nonempty_witness :
    (get_cached_roster envCacheHit.cacheFile envCacheHit.now).1 = some [pEx] ∧ [pEx] ≠ [] :=
  (cache_hit_requires_nonempty "LAL" "2023-24" envCacheHit 1610612747 (by decide)
    (by decide)).1 [pEx] (by decide)

/-- C3.  The enriched roster is, up to the descending sort, exactly the
roster joined row by row to the scoring table (zero score default), it
is sorted by per game score descending, and each output row carries the
low scorer flag exactly when its score is below the 10.0 threshold. -/
theorem roster_enrichment_conforms (roster : List RosterRow) (tbl : List (ℤ × ℚ)) :
    (enrichPlayers roster tbl).Perm (roster.map (specJoinRow tbl)) ∧
    List.Sorted (fun a b => b.ppg ≤ a.ppg) (enrichPlayers roster tbl) ∧
    (∀ e ∈ enrichPlayers roster tbl, e.isLowScorer = decide (e.ppg < 10)) := by
  have hmap : roster.map (enrichRosterPlayer tbl) = roster.map (specJoinRow tbl) := rfl
  refine ⟨?_, ?_, ?_⟩
  · show (List.insertionSort ppgDescRel (roster.map (enrichRosterPlayer tbl))).Perm _
    rw [hmap]
    exact List.perm_insertionSort ppgDescRel _
  · exact List.sorted_insertionSort ppgDescRel _
  · intro e he
    have hmem : e ∈ roster.map (enrichRosterPlayer tbl) :=
      (List.perm_insertionSort ppgDescRel _).mem_iff.mp he
    obtain ⟨p, _, hpe⟩ := List.mem_map.mp hmem
    rw [← hpe]
    rfl

/-- C8 counterexample.  A provider roster carrying the same player
identifier twice flows through the enrichment untouched, so the
enriched output repeats the identifier, contrary to the claim that the
output never does regardless of duplicated provider rows. -/
theorem enrichment_nodup_cex :
    ¬ (((enrichPlayers (fetch_team_roster (some dupRawRoster)) []).map
        (fun p => p.id)).Nodup) := by
  decide

/-- C8 (corrected).  When the provider roster rows carry pairwise
distinct player identifiers, so does the enriched output: enrichment
maps each roster row to one output row preserving its identifier, and
the sort only permutes them. -/
theorem enrichment_nodup_of_nodup (roster : List RosterRow) (tbl : List (ℤ × ℚ))
    (h : (roster.map (fun p => p.id)).Nodup) :
    ((enrichPlayers roster tbl).map (fun p => p.id)).Nodup := by
  have hperm :
      ((enrichPlayers roster tbl).map (fun p => p.id)).Perm
        ((roster.map (enrichRosterPlayer tbl)).map (fun p => p.id)) :=
    (List.perm_insertionSort ppgDescRel _).map _
  have hids :
      (roster.map (enrichRosterPlayer tbl)).map (fun p => p.id) =
        roster.map (fun p => p.id) := by
    rw [List.map_map]
    rfl
  rw [hids] at hperm
  exact hperm.symm.nodup h

/-- C8 witness on a two player roster with distinct identifiers. -/
theorem enrichment_nodup_witness :
    ((enrichPlayers roster2 []).map (fun p => p.id)).Nodup :=
  enrichment_nodup_of_nodup roster2 [] (by decide)

/-- Every key produced by `firstKeys` occurs in the input list. -/
theorem mem_firstKeys_aux (k : String) :
    ∀ (l acc : List String),
      k ∈ l.foldl (fun acc k => if acc.contains k then acc else acc ++ [k]) acc →
      k ∈ acc ∨ k ∈ l := by
  intro l
  induction l with
  | nil =>
    intro acc h
    exact Or.inl h
  | cons x xs ih =>
    intro acc h
    simp only [List.foldl_cons] at h
    rcases ih _ h with h1 | h1
    · by_cases hc : acc.contains x
      · simp only [hc, if_true] at h1
        exact Or.inl h1
      · simp only [hc, Bool.false_eq_true, if_false] at h1
        rcases List.mem_append.mp h1 with h2 | h2
        · exact Or.inl h2
        · simp only [List.mem_singleton] at h2
          exact Or.inr (h2 ▸ List.mem_cons_self x xs)
    · exact Or.inr (List.mem_cons_of_mem x h1)

theorem mem_of_mem_firstKeys {k : String} {l : List String} (h : k ∈ firstKeys l) :
    k ∈ l := by
  have := mem_firstKeys_aux k l [] h
  simpa using this

/-- The season label of each built season group is its key. -/
theorem buildSeasonOf_season_eq (rows : List CareerRow) (k : String)
    (h : k ∈ rows.map (fun r => r.season_id)) : (buildSeasonOf rows k).season = k := by
  obtain ⟨r, hr, hrk⟩ := List.mem_map.mp h
  have hrf : r ∈ rows.filter (fun r => r.season_id == k) :=
    List.mem_filter.mpr ⟨hr, by simp [hrk]⟩
  rcases hg : rows.filter (fun r => r.season_id == k) with _ | ⟨g0, gs⟩
  · rw [hg] at hrf
    cases hrf
  · have hg0 : g0.season_id = k := by
      have hmem : g0 ∈ rows.filter (fun r => r.season_id == k) := by
        rw [hg]
        exact List.mem_cons_self g0 gs
      have hb := List.of_mem_filter hmem
      simp only at hb
      exact eq_of_beq hb
    simp only [buildSeasonOf, hg]
    split
    · simp [mkSeasonRowFrom, List.headD_cons, hg0]
    · simp [mkSeasonRowFrom]

/-- The season labels of a built career are exactly the distinct season
identifiers of the frame, in first occurrence order. -/
theorem buildSeasons_map_season (rows : List CareerRow) :
    (buildSeasons rows).map (fun sr => sr.season) =
      firstKeys (rows.map (fun r => r.season_id)) := by
  unfold buildSeasons
  rw [List.map_map]
  have hcongr : ∀ k ∈ firstKeys (rows.map (fun r => r.season_id)),
      ((fun sr => sr.season) ∘ buildSeasonOf rows) k = id k := by
    intro k hk
    exact buildSeasonOf_season_eq rows k (mem_of_mem_firstKeys hk)
  rw [List.map_congr_left hcongr, List.map_id]

/-- C9 counterexample.  A career frame whose rows arrive in descending
season order produces a pool entry whose season list is in that same
descending order, so entries created by the career fetch are not always
ascending by season label, contrary to the claim. -/
theorem career_fetch_order_cex :
    (fetch_career 1 "P" (some outOfOrderRows) none).map
        (fun c => c.seasons.map (fun sr => sr.season)) = some ["2001-02", "2000-01"] ∧
    ¬ (("2001-02" : String).data ≤ ("2000-01" : String).data) := by
  exact ⟨by decide, by decide⟩

/-- C9 (corrected).  A career fetch lists the seasons of an entry in
the first occurrence order of the provider frame (hence ascending
exactly when the provider returns ascending rows), and after the
incremental updater appends a season row to an existing player the
resulting season list is sorted ascending by season label. -/
theorem career_pool_season_order (player_id : ℤ) (player_name : String)
    (rows : List CareerRow) (bd : Option BioRaw) (c : Career)
    (h : fetch_career player_id player_name (some rows) bd = some c) :
    c.seasons.map (fun sr => sr.season) = firstKeys (rows.map (fun r => r.season_id)) ∧
    (∀ (e : Career) (r : StatsRow) (season : String),
      List.Sorted seasonKeyRel (appendSeasonSorted e r season).seasons) := by
  constructor
  · have hc : c.seasons = buildSeasons rows := by
      simp only [fetch_career] at h
      split_ifs at h with h0 h1
      cases h
      rfl
    rw [hc]
    exact buildSeasons_map_season rows
  · intro e r season
    exact List.sorted_insertionSort seasonKeyRel _

/-- C9 witness: the two row ascending frame keeps its order, and a
concrete append re-sorts the concrete entry. -/
theorem career_pool_season_order_witness :
    cW.seasons.map (fun sr => sr.season) = firstKeys (wRows.map (fun r => r.season_id)) ∧
    List.Sorted seasonKeyRel
      (appendSeasonSorted ⟨1, "A", [sr2000], defaultBio⟩ rowEx1 "2001-02").seasons := by
  have h := career_pool_season_order 7 "W" wRows none cW rfl
  exact ⟨h.1, h.2 ⟨1, "A", [sr2000], defaultBio⟩ rowEx1 "2001-02"⟩

/-- The length guard of `fetch_career`: any returned entry carries at
least two season rows. -/
theorem fetch_career_min_seasons {pid : ℤ} {nm : String} {cd : Option (List CareerRow)}
    {bd : Option BioRaw} {c : Career} (h : fetch_career pid nm cd bd = some c) :
    2 ≤ c.seasons.length := by
  cases cd with
  | none => simp [fetch_career] at h
  | some rows =>
    simp only [fetch_career] at h
    split_ifs at h with h0 h1
    cases h
    simpa using Nat.le_of_not_lt h1

/-- The length guard of `fetch_full_career`. -/
theorem fetch_full_career_min_seasons {pid : ℤ} {nm : String} {cd : Option (List CareerRow)}
    {bd : Option BioRaw} {c : Career} (h : fetch_full_career pid nm cd bd = some c) :
    2 ≤ c.seasons.length := by
  cases cd with
  | none => simp [fetch_full_career] at h
  | some rows =>
    simp only [fetch_full_career] at h
    split_ifs at h with h0 h1
    cases h
    simpa using Nat.le_of_not_lt h1

/-- Members of a dictionary insertion are old members or the new value. -/
theorem mem_insertCareer {pool : List Career} {c e : Career} (h : e ∈ insertCareer pool c) :
    e ∈ pool ∨ e = c := by
  unfold insertCareer at h
  split_ifs at h with hc
  · obtain ⟨x, hx, hxe⟩ := List.mem_map.mp h
    by_cases hxx : (x.player_id == c.player_id) = true
    · rw [if_pos hxx] at hxe
      exact Or.inr hxe.symm
    · rw [if_neg hxx] at hxe
      exact Or.inl (hxe ▸ hx)
  · rcases List.mem_append.mp h with h1 | h1
    · exact Or.inl h1
    · exact Or.inr (List.mem_singleton.mp h1)

/-- Members of an in place replacement are old members or the new value. -/
theorem mem_replacePool {pool : List Career} {pid : ℤ} {c e : Career}
    (h : e ∈ replacePool pool pid c) : e ∈ pool ∨ e = c := by
  unfold replacePool at h
  obtain ⟨x, hx, hxe⟩ := List.mem_map.mp h
  by_cases hxx : (x.player_id == pid) = true
  · rw [if_pos hxx] at hxe
    exact Or.inr hxe.symm
  · rw [if_neg hxx] at hxe
    exact Or.inl (hxe ▸ hx)

/-- One updater row step keeps the two season lower bound. -/
theorem updateStep_keeps_min (season : String) (r : StatsRow) (s : UpdState)
    (hInv : ∀ e ∈ s.pool, 2 ≤ e.seasons.length) :
    ∀ e ∈ (updateStep season s r).pool, 2 ≤ e.seasons.length := by
  intro e he
  unfold updateStep at he
  rcases hx : extractRow r with _ | ⟨pid, nm, gp, pts⟩
  · rw [hx] at he
    exact hInv e he
  · simp only [hx] at he
    rcases hf : s.pool.find? (fun c => c.player_id == pid) with _ | entry
    · simp only [hf] at he
      split_ifs at he
      · exact hInv e he
      · exact hInv e he
    · simp only [hf] at he
      split_ifs at he with hc2
      · exact hInv e he
      · rcases mem_replacePool he with h1 | h1
        · exact hInv e h1
        · have hm : entry ∈ s.pool := List.mem_of_find?_eq_some hf
          have h2 := hInv entry hm
          rw [h1]
          simp only [appendSeasonSorted, List.length_insertionSort, List.length_append,
            List.length_singleton]
          omega

/-- The updater row loop keeps the two season lower bound. -/
theorem foldl_updateStep_keeps_min (season : String) :
    ∀ (rows : List StatsRow) (s : UpdState),
      (∀ e ∈ s.pool, 2 ≤ e.seasons.length) →
      ∀ e ∈ (rows.foldl (updateStep season) s).pool, 2 ≤ e.seasons.length := by
  intro rows
  induction rows with
  | nil =>
    intro s h e he
    exact h e he
  | cons r rs ih =>
    intro s h e he
    simp only [List.foldl_cons] at he
    exact ih (updateStep season s r) (updateStep_keeps_min season r s h) e he

/-- The updater candidate loop keeps the two season lower bound. -/
theorem foldl_candStep_keeps_min (pc : ℤ → Option (List CareerRow)) (pb : ℤ → Option BioRaw) :
    ∀ (cands : List Candidate) (pool : List Career),
      (∀ e ∈ pool, 2 ≤ e.seasons.length) →
      ∀ e ∈ cands.foldl (candStep pc pb) pool, 2 ≤ e.seasons.length := by
  intro cands
  induction cands with
  | nil =>
    intro pool h e he
    exact h e he
  | cons p ps ih =>
    intro pool h e he
    simp only [List.foldl_cons] at he
    refine ih (candStep pc pb pool p) ?_ e he
    intro x hx
    unfold candStep at hx
    rcases hfc : fetch_full_career p.player_id p.player_name (pc p.player_id) (pb p.player_id)
      with _ | c
    · rw [hfc] at hx
      exact h x hx
    · rw [hfc] at hx
      rcases mem_insertCareer hx with h1 | h1
      · exact h x h1
      · rw [h1]
        exact fetch_full_career_min_seasons hfc

/-- The phase C loop of the pool builder keeps the two season lower
bound on the accumulated pool. -/
theorem foldl_phaseCStep_keeps_min (pc : ℤ → Option (List CareerRow))
    (pb : ℤ → Option BioRaw) :
    ∀ (cands : List Candidate) (acc : List Career × List ℤ),
      (∀ e ∈ acc.1, 2 ≤ e.seasons.length) →
      ∀ e ∈ (cands.foldl (phaseCStep pc pb) acc).1, 2 ≤ e.seasons.length := by
  intro cands
  induction cands with
  | nil =>
    intro acc h e he
    exact h e he
  | cons p ps ih =>
    intro acc h e he
    simp only [List.foldl_cons] at he
    refine ih (phaseCStep pc pb acc p) ?_ e he
    intro x hx
    unfold phaseCStep at hx
    rcases hfc : fetch_career p.player_id p.player_name (pc p.player_id) (pb p.player_id)
      with _ | c
    · rw [hfc] at hx
      exact h x hx
    · rw [hfc] at hx
      rcases List.mem_append.mp hx with h1 | h1
      · exact h x h1
      · rw [List.mem_singleton.mp h1]
        exact fetch_career_min_seasons hfc

/-- C4.  Every entry ever placed into the career pool has at least two
season rows: both career fetches discard shorter careers, the pool
builder phase C only appends fetched entries, and one full updater
season pass (row loop plus new candidate loop) preserves the bound on
every entry. -/
theorem career_pool_min_two_seasons :
    (∀ (pid : ℤ) (nm : String) (cd : Option (List CareerRow)) (bd : Option BioRaw)
        (c : Career), fetch_career pid nm cd bd = some c → 2 ≤ c.seasons.length) ∧
    (∀ (pid : ℤ) (nm : String) (cd : Option (List CareerRow)) (bd : Option BioRaw)
        (c : Career), fetch_full_career pid nm cd bd = some c → 2 ≤ c.seasons.length) ∧
    (∀ (careers0 : List Career) (cands : List Candidate)
        (pc : ℤ → Option (List CareerRow)) (pb : ℤ → Option BioRaw),
      (∀ e ∈ careers0, 2 ≤ e.seasons.length) →
      ∀ e ∈ (phaseC careers0 cands pc pb).1, 2 ≤ e.seasons.length) ∧
    (∀ (pool : List Career) (rows : List StatsRow) (season : String)
        (pc : ℤ → Option (List CareerRow)) (pb : ℤ → Option BioRaw),
      (∀ e ∈ pool, 2 ≤ e.seasons.length) →
      ∀ e ∈ runSeasonUpdate pool rows season pc pb, 2 ≤ e.seasons.length) := by
  refine ⟨?_, ?_, ?_, ?_⟩
  · intro pid nm cd bd c h
    exact fetch_career_min_seasons h
  · intro pid nm cd bd c h
    exact fetch_full_career_min_seasons h
  · intro careers0 cands pc pb h
    exact foldl_phaseCStep_keeps_min pc pb cands (careers0, []) h
  · intro pool rows season pc pb h e he
    unfold runSeasonUpdate candPhase at he
    refine foldl_candStep_keeps_min pc pb _ _ ?_ e he
    intro x hx
    exact foldl_updateStep_keeps_min season rows ⟨pool, 0, 0, []⟩ h x hx

/-- C4 witness: a two season fetched entry and a concrete season pass
over the example pool. -/
theorem career_pool_min_two_seasons_witness :
    2 ≤ cW.seasons.length ∧
    (∀ e ∈ runSeasonUpdate poolEx1 [] "2024-25" (fun _ => none) (fun _ => none),
      2 ≤ e.seasons.length) := by
  constructor
  · exact career_pool_min_two_seasons.1 7 "W" (some wRows) none cW rfl
  · exact career_pool_min_two_seasons.2.2.2 poolEx1 [] "2024-25" (fun _ => none)
      (fun _ => none) (by decide)

/-- When every row of the batch is already applied, the row loop only
counts them as already present. -/
theorem foldl_updateStep_applied (season : String) :
    ∀ (rows : List StatsRow) (pool : List Career) (a : ℕ),
      (∀ r ∈ rows, AppliedRow pool season r) →
      rows.foldl (updateStep season) ⟨pool, 0, a, []⟩ = ⟨pool, 0, a + rows.length, []⟩ := by
  intro rows
  induction rows with
  | nil =>
    intro pool a _
    simp
  | cons r rs ih =>
    intro pool a h
    obtain ⟨pid, nm, gp, pts, hx, e, he, hs⟩ := h r (List.mem_cons_self r rs)
    have hstep : updateStep season ⟨pool, 0, a, []⟩ r = ⟨pool, 0, a + 1, []⟩ := by
      simp only [updateStep, hx, he, hs, if_true]
    simp only [List.foldl_cons, hstep]
    rw [ih pool (a + 1) (fun x hx2 => h x (List.mem_cons_of_mem r hx2))]
    simp only [List.length_cons, UpdState.mk.injEq, and_true, true_and]
    omega

/-- C1.  Re-running the incremental updater for a season every stat row
of which is already applied to the pool changes nothing: the row loop
leaves the pool untouched, counts every row as already present, counts
zero updates, accumulates no candidates, and the full season pass
returns the pool unchanged. -/
theorem updater_second_run_noop (pool : List Career) (rows : List StatsRow) (season : String)
    (pc : ℤ → Option (List CareerRow)) (pb : ℤ → Option BioRaw)
    (h : ∀ r ∈ rows, AppliedRow pool season r) :
    processRows pool rows season = ⟨pool, 0, rows.length, []⟩ ∧
    runSeasonUpdate pool rows season pc pb = pool := by
  have h1 : processRows pool rows season = ⟨pool, 0, rows.length, []⟩ := by
    have h2 := foldl_updateStep_applied season rows pool 0 h
    simpa [processRows] using h2
  refine ⟨h1, ?_⟩
  unfold runSeasonUpdate candPhase
  rw [h1]
  rfl

/-- C1 witness: a pool that already holds season 2000-01 for player 1
absorbs a second run of that season as a no-op. -/
theorem updater_second_run_noop_witness :
    processRows poolEx1 rowsEx1 "2000-01" = ⟨poolEx1, 0, rowsEx1.length, []⟩ ∧
    runSeasonUpdate poolEx1 rowsEx1 "2000-01" (fun _ => none) (fun _ => none) = poolEx1 := by
  refine updater_second_run_noop poolEx1 rowsEx1 "2000-01" (fun _ => none) (fun _ => none) ?_
  intro r hr
  have hr1 : r = rowEx1 := List.mem_singleton.mp hr
  subst hr1
  exact ⟨1, "A", 0, 0, rfl, ⟨1, "A", [sr2000, sr2001], defaultBio⟩, rfl, by decide⟩

/-- The phase C loop hands exactly its candidate list, in order, to the
detail fetch. -/
theorem foldl_phaseCStep_log (pc : ℤ → Option (List CareerRow)) (pb : ℤ → Option BioRaw) :
    ∀ (cands : List Candidate) (acc : List Career × List ℤ),
      (cands.foldl (phaseCStep pc pb) acc).2 = acc.2 ++ cands.map (fun p => p.player_id) := by
  intro cands
  induction cands with
  | nil =>
    intro acc
    simp
  | cons p ps ih =>
    intro acc
    simp only [List.foldl_cons, List.map_cons]
    rw [ih]
    have h2 : (phaseCStep pc pb acc p).2 = acc.2 ++ [p.player_id] := by
      cases hE : fetch_career p.player_id p.player_name (pc p.player_id) (pb p.player_id) with
      | none => simp [phaseCStep, hE]
      | some c => simp [phaseCStep, hE]
    rw [h2, List.append_assoc]
    rfl

/-- Integer list membership through the boolean `contains`. -/
theorem zContains_iff (l : List ℤ) (a : ℤ) : l.contains a = true ↔ a ∈ l :=
  List.elem_iff

/-- C5.  Running the pool builder with the resume flag and a checkpoint
file: the detail fetch phase is handed exactly the eligible candidates
whose identifier is not among the checkpoint identifiers — an
identifier is fetched iff it belongs to some eligible candidate and is
not in the checkpoint.  The eligible list itself is an input of the
selection, computed by the coarse phases with no access to the
checkpoint. -/
theorem resume_skips_checkpoint (checkpointEntries : List Career) (eligible : List Candidate)
    (pc : ℤ → Option (List CareerRow)) (pb : ℤ → Option BioRaw) :
    (genMain true (some checkpointEntries) eligible pc pb).2 =
      (eligible.filter (fun p =>
        !((checkpointEntries.map (fun c => c.player_id)).contains p.player_id))).map
        (fun p => p.player_id) ∧
    (∀ pid : ℤ,
      pid ∈ (genMain true (some checkpointEntries) eligible pc pb).2 ↔
        ((∃ p ∈ eligible, p.player_id = pid) ∧
          pid ∉ checkpointEntries.map (fun c => c.player_id))) := by
  have hlog : (genMain true (some checkpointEntries) eligible pc pb).2 =
      (eligible.filter (fun p =>
        !((checkpointEntries.map (fun c => c.player_id)).contains p.player_id))).map
        (fun p => p.player_id) := by
    unfold genMain phaseC
    rw [foldl_phaseCStep_log]
    simp
  refine ⟨hlog, fun pid => ?_⟩
  rw [hlog]
  constructor
  · intro hmem
    obtain ⟨p, hp, hpe⟩ := List.mem_map.mp hmem
    obtain ⟨hpel, hpb⟩ := List.mem_filter.mp hp
    refine ⟨⟨p, hpel, hpe⟩, ?_⟩
    intro hcon
    rw [← hpe] at hcon
    have hb := (zContains_iff _ _).mpr hcon
    rw [hb] at hpb
    cases hpb
  · rintro ⟨⟨p, hp, hpe⟩, hnotin⟩
    refine List.mem_map.mpr ⟨p, List.mem_filter.mpr ⟨hp, ?_⟩, hpe⟩
    have hnc : ¬ p.player_id ∈ checkpointEntries.map (fun c => c.player_id) := by
      rw [hpe]
      exact hnotin
    have hb : (checkpointEntries.map (fun c => c.player_id)).contains p.player_id = false := by
      by_cases hcb : (checkpointEntries.map (fun c => c.player_id)).contains p.player_id = true
      · exact absurd ((zContains_iff _ _).mp hcb) hnc
      · exact Bool.eq_false_iff.mpr hcb
    rw [hb]
    rfl
